import Mathlib

/-!
Verification of the `ongniud/future` one-shot future/promise library.

The repository ships two variants of the primitive:

* the mutex-based variant (`package A`, the code block embedded in
  `README.md` and exercised by `future_test.go`): `Result`, `Ready`,
  `Done`, `Abort`, with a `sync.Mutex` guarding the result slot, a
  `sync.Once` start gate, a `closed sync.Once` around `close(done)`,
  and a `recover` boundary in `start`;

* the channel-based variant (`future.go`, `package future`): `Await`,
  `Done`, `Abort`, with `atomic.Value` result cells, a `sync.Once`
  start gate, and a `select` over `f.done` / `f.ctx.Done()`.

Both are embedded below as explicit state machines: each mutex-guarded
critical section (or lock-free atomic block) of the Go code is one
atomic event, and an execution of the program is a `List` of events
folded over the state.  Ghost counters (`execCount`, `writeCount`,
`closeCount`, `abortCount`) instrument how often the task body is
invoked, the result slot assigned, and the done channel closed.
-/

namespace FutureSpec

/-- Go error values that the library can place in a result slot or
obtain from a cancellation context.  `contextCanceled` is
`context.Canceled`, `deadlineExceeded` is `context.DeadlineExceeded`,
`panicOccurred msg` is the error built by
`fmt.Errorf("panic occurred: %v", r)` in the recover path of `start`,
and `workErr` stands for an arbitrary domain error returned by a work
function. -/
inductive GoErr where
  | contextCanceled
  | deadlineExceeded
  | panicOccurred (msg : String)
  | workErr (code : Nat)
  deriving DecidableEq

/-- Behaviour of a work function when it returns control: a normal
return of a `(value, error)` pair (either component may be Go `nil`,
modelled by `Option`), or a runtime panic carrying a message. -/
inductive TaskOutcome where
  | ret (v : Option Nat) (e : Option GoErr)
  | panicked (msg : String)
  deriving DecidableEq

/-- A cooperative work function.  Its argument is whether the
cancellation context passed to it is already done at the moment it
returns, so both a task that observes `ctx.Done()` and one that
ignores it can be expressed. -/
abbrev TaskFn := Bool → TaskOutcome

/-- Program counter of the spawned execution goroutine: not yet
spawned / task running / result written but `markDone` still pending
(mutex variant only) / finished. -/
inductive ExecPhase where
  | idle
  | running
  | wrote
  | finished
  deriving DecidableEq

/-- State of the mutex-based Future (the `package A` variant in
`README.md`): the fields `item`, `err`, the done channel (`doneClosed`),
the `once` start gate, the derived cancellation context
(`ctxCanceled`, `ctxErr` = `ctx.Err()`), the execution goroutine's
program counter, plus ghost counters.  `closed sync.Once` is implied
by `closeCount`/`doneClosed`. -/
structure StateA where
  lazy : Bool
  task : TaskFn
  item : Option Nat := none
  err : Option GoErr := none
  doneClosed : Bool := false
  onceUsed : Bool := false
  ctxCanceled : Bool := false
  ctxErr : Option GoErr := none
  phase : ExecPhase := ExecPhase.idle
  execCount : Nat := 0
  writeCount : Nat := 0
  closeCount : Nat := 0
  abortCount : Nat := 0

/-- Atomic events of the mutex variant.
`demand` is the `f.once.Do(f.start)` performed by `Result()` (and by
eager construction); `publish` is the mutex-guarded result write the
execution goroutine performs once the task returns (normal or recover
path); `finish` is its subsequent `f.markDone()`; `abort` is the whole
body of `Abort()` (which holds the mutex throughout); `parentCancel e`
is an external cancellation/timeout of the ambient parent context with
`ctx.Err() = e`. -/
inductive EvA where
  | demand
  | publish
  | finish
  | abort
  | parentCancel (e : GoErr)
  deriving DecidableEq

/-- `f.once.Do(f.start)`: the first caller claims the one-shot gate and
spawns the execution goroutine, which invokes the task exactly once;
later callers find the gate used and do nothing. -/
def startGateA (s : StateA) : StateA :=
  if s.onceUsed then s
  else { s with onceUsed := true, phase := ExecPhase.running,
                execCount := s.execCount + 1 }

/-- The mutex-guarded write in `start`'s goroutine: the normal path
stores the returned pair verbatim (`f.item, f.err = res, err`); the
recover path stores only the converted panic error
(`f.err = fmt.Errorf("panic occurred: %v", r)`), leaving `item`
untouched. -/
def writeOutcomeA (s : StateA) (o : TaskOutcome) : StateA :=
  match o with
  | TaskOutcome.ret v e =>
      { s with item := v, err := e, phase := ExecPhase.wrote,
               writeCount := s.writeCount + 1 }
  | TaskOutcome.panicked m =>
      { s with err := some (GoErr.panicOccurred m),
               phase := ExecPhase.wrote,
               writeCount := s.writeCount + 1 }

/-- One atomic step of the mutex variant. -/
def stepA (s : StateA) : EvA → StateA
  | EvA.demand => startGateA s
  | EvA.publish =>
      if s.phase = ExecPhase.running then
        writeOutcomeA s (s.task s.ctxCanceled)
      else s
  | EvA.finish =>
      if s.phase = ExecPhase.wrote then
        if s.doneClosed then { s with phase := ExecPhase.finished }
        else { s with doneClosed := true, phase := ExecPhase.finished,
                      closeCount := s.closeCount + 1 }
      else s
  | EvA.abort =>
      if s.doneClosed then s
      else { s with ctxCanceled := true,
                    ctxErr := some (s.ctxErr.getD GoErr.contextCanceled),
                    item := none, err := some GoErr.contextCanceled,
                    doneClosed := true,
                    writeCount := s.writeCount + 1,
                    closeCount := s.closeCount + 1,
                    abortCount := s.abortCount + 1 }
  | EvA.parentCancel e =>
      if s.ctxCanceled then s
      else { s with ctxCanceled := true, ctxErr := some e }

/-- `NewFuture` of the mutex variant: captures the task, derives the
cancellation context, and, when not lazy, performs `f.once.Do(f.start)`
synchronously. -/
def mkA (lz : Bool) (task : TaskFn) : StateA :=
  let s : StateA := { lazy := lz, task := task }
  if lz then s else startGateA s

/-- An execution of the mutex variant: fold the events over the state. -/
def runA (s : StateA) (tr : List EvA) : StateA := tr.foldl stepA s

/-- `Result()` after its `once.Do`: it blocks on the done channel, then
returns `(f.item, f.err)` under the mutex.  `none` models a call that
is still blocked. -/
def ResultA (s : StateA) : Option (Option Nat × Option GoErr) :=
  if s.doneClosed then some (s.item, s.err) else none

/-- `Ready()`: non-blocking poll of the done channel. -/
def ReadyA (s : StateA) : Bool := s.doneClosed

/-- Number of result-slot writes the execution goroutine has performed
by the time it reaches phase `p` (it writes exactly once, on the
transition into `wrote`). -/
def wIndicator (p : ExecPhase) : Nat :=
  if p = ExecPhase.wrote ∨ p = ExecPhase.finished then 1 else 0

/-- Reachable-state invariant of the mutex variant: the task runs iff
the gate was claimed; the done channel is closed at most once; `Abort`
publishes at most once and only having closed the channel; the result
slot is written once by the execution path (when the goroutine reached
`wrote`/`finished`) plus once per publishing `Abort`; a non-idle
goroutine implies the gate was claimed. -/
def InvA (s : StateA) : Prop :=
  s.execCount = (if s.onceUsed then 1 else 0) ∧
  s.closeCount = (if s.doneClosed then 1 else 0) ∧
  s.abortCount ≤ 1 ∧
  (1 ≤ s.abortCount → s.doneClosed = true) ∧
  s.writeCount = wIndicator s.phase + s.abortCount ∧
  (s.phase ≠ ExecPhase.idle → s.onceUsed = true)

/-- State of the channel-based Future (`future.go`): the `atomic.Value`
cells `res` and `err`, the done channel, the `once` gate, the derived
cancellation context, and whether the execution goroutine died of an
unrecovered panic. -/
structure StateF where
  lazy : Bool
  promise : TaskFn
  res : Option Nat := none
  err : Option GoErr := none
  doneClosed : Bool := false
  onceUsed : Bool := false
  ctxCanceled : Bool := false
  ctxErr : Option GoErr := none
  phase : ExecPhase := ExecPhase.idle
  execCount : Nat := 0
  crashed : Bool := false

/-- Atomic events of the channel variant.  `demand` is the
`go f.run()` spawned by `Await()` in lazy mode (or by eager
construction) together with `run`'s `once.Do` claim; `publish` is the
remainder of `run`'s body once the promise returns; `abort` is
`Abort()` (= `f.cancel()`); `parentCancel e` is external expiry of the
ambient context. -/
inductive EvF where
  | demand
  | publish
  | abort
  | parentCancel (e : GoErr)
  deriving DecidableEq

/-- `once.Do` claim inside `run`. -/
def startGateF (s : StateF) : StateF :=
  if s.onceUsed then s
  else { s with onceUsed := true, phase := ExecPhase.running,
                execCount := s.execCount + 1 }

/-- The tail of `run`'s once-body after the promise returns.  On a
normal return it performs the two conditional stores
(`if res != nil { f.res.Store(res) }`, `if err != nil { f.err.Store(err) }`)
and then `close(f.done)`.  `run` has no `recover`, so a panicking
promise kills the goroutine before any store and before `close(f.done)`:
nothing of the state is published and the done channel stays open. -/
def publishF (s : StateF) (o : TaskOutcome) : StateF :=
  match o with
  | TaskOutcome.ret v e =>
      { s with res := if v.isSome then v else s.res,
               err := if e.isSome then e else s.err,
               doneClosed := true, phase := ExecPhase.finished }
  | TaskOutcome.panicked _ =>
      { s with crashed := true, phase := ExecPhase.finished }

/-- One atomic step of the channel variant. -/
def stepF (s : StateF) : EvF → StateF
  | EvF.demand => startGateF s
  | EvF.publish =>
      if s.phase = ExecPhase.running then
        publishF s (s.promise s.ctxCanceled)
      else s
  | EvF.abort =>
      if s.ctxCanceled then s
      else { s with ctxCanceled := true,
                    ctxErr := some GoErr.contextCanceled }
  | EvF.parentCancel e =>
      if s.ctxCanceled then s
      else { s with ctxCanceled := true, ctxErr := some e }

/-- `NewFuture` of the channel variant: captures the promise and the
derived context; when not lazy it spawns `go f.run()`, whose `once.Do`
claim succeeds unconditionally, so the gate is claimed here. -/
def mkF (lz : Bool) (promise : TaskFn) : StateF :=
  let s : StateF := { lazy := lz, promise := promise }
  if lz then s else startGateF s

/-- An execution of the channel variant. -/
def runF (s : StateF) (tr : List EvF) : StateF := tr.foldl stepF s

/-- `Await()` after its lazy trigger: the `select` over `f.done` and
`f.ctx.Done()`.  When both channels are ready Go chooses a branch
nondeterministically; `pickDone` models that choice.  The context
branch returns `(nil, f.ctx.Err())` (with `context.Canceled` as the
code's fallback).  `none` models a call that is still blocked. -/
def AwaitF (s : StateF) (pickDone : Bool) : Option (Option Nat × Option GoErr) :=
  if s.doneClosed then
    if s.ctxCanceled ∧ pickDone = false then
      some (none, some (s.ctxErr.getD GoErr.contextCanceled))
    else some (s.res, s.err)
  else if s.ctxCanceled then
    some (none, some (s.ctxErr.getD GoErr.contextCanceled))
  else none

/-- Reachable-state invariant of the channel variant: the promise body
runs iff the gate was claimed, and a non-idle goroutine implies the
gate was claimed. -/
def InvF (s : StateF) : Prop :=
  s.execCount = (if s.onceUsed then 1 else 0) ∧
  (s.phase ≠ ExecPhase.idle → s.onceUsed = true)

@[simp] theorem writeOutcomeA_onceUsed (s : StateA) (o : TaskOutcome) :
    (writeOutcomeA s o).onceUsed = s.onceUsed := by
  cases o <;> rfl

@[simp] theorem writeOutcomeA_execCount (s : StateA) (o : TaskOutcome) :
    (writeOutcomeA s o).execCount = s.execCount := by
  cases o <;> rfl

@[simp] theorem writeOutcomeA_writeCount (s : StateA) (o : TaskOutcome) :
    (writeOutcomeA s o).writeCount = s.writeCount + 1 := by
  cases o <;> rfl

@[simp] theorem writeOutcomeA_closeCount (s : StateA) (o : TaskOutcome) :
    (writeOutcomeA s o).closeCount = s.closeCount := by
  cases o <;> rfl

@[simp] theorem writeOutcomeA_abortCount (s : StateA) (o : TaskOutcome) :
    (writeOutcomeA s o).abortCount = s.abortCount := by
  cases o <;> rfl

@[simp] theorem writeOutcomeA_doneClosed (s : StateA) (o : TaskOutcome) :
    (writeOutcomeA s o).doneClosed = s.doneClosed := by
  cases o <;> rfl

@[simp] theorem writeOutcomeA_phase (s : StateA) (o : TaskOutcome) :
    (writeOutcomeA s o).phase = ExecPhase.wrote := by
  cases o <;> rfl

@[simp] theorem publishF_onceUsed (s : StateF) (o : TaskOutcome) :
    (publishF s o).onceUsed = s.onceUsed := by
  cases o <;> rfl

@[simp] theorem publishF_execCount (s : StateF) (o : TaskOutcome) :
    (publishF s o).execCount = s.execCount := by
  cases o <;> rfl

theorem runA_cons (s : StateA) (e : EvA) (tr : List EvA) :
    runA s (e :: tr) = runA (stepA s e) tr := rfl

theorem runF_cons (s : StateF) (e : EvF) (tr : List EvF) :
    runF s (e :: tr) = runF (stepF s e) tr := rfl

@[simp] theorem wIndicator_idle : wIndicator ExecPhase.idle = 0 := rfl

@[simp] theorem wIndicator_running : wIndicator ExecPhase.running = 0 := rfl

@[simp] theorem wIndicator_wrote : wIndicator ExecPhase.wrote = 1 := rfl

@[simp] theorem wIndicator_finished : wIndicator ExecPhase.finished = 1 := rfl

theorem invA_step (s : StateA) (e : EvA) (h : InvA s) : InvA (stepA s e) := by
  obtain ⟨h1, h2, h3, h4, h5, h6⟩ := h
  cases e with
  | demand =>
    show InvA (startGateA s)
    unfold startGateA
    split_ifs with ho
    · exact ⟨h1, h2, h3, h4, h5, h6⟩
    · have hp : s.phase = ExecPhase.idle := by
        by_contra hc
        exact ho (h6 hc)
      have h1' : s.execCount = 0 := by simpa [ho] using h1
      have h5' : s.writeCount = s.abortCount := by simpa [hp] using h5
      refine ⟨?_, h2, h3, h4, ?_, fun _ => rfl⟩
      · simp [h1']
      · simp [h5']
  | publish =>
    show InvA (if s.phase = ExecPhase.running then
        writeOutcomeA s (s.task s.ctxCanceled) else s)
    split_ifs with hr
    · have h5' : s.writeCount = s.abortCount := by simpa [hr] using h5
      refine ⟨?_, ?_, ?_, ?_, ?_, ?_⟩
      · simpa using h1
      · simpa using h2
      · simpa using h3
      · simpa using h4
      · simp [h5']
        omega
      · intro _
        simpa using h6 (by simp [hr])
    · exact ⟨h1, h2, h3, h4, h5, h6⟩
  | finish =>
    show InvA (if s.phase = ExecPhase.wrote then
        (if s.doneClosed then { s with phase := ExecPhase.finished }
         else { s with doneClosed := true, phase := ExecPhase.finished,
                       closeCount := s.closeCount + 1 }) else s)
    split_ifs with hw hd
    · have h5' : s.writeCount = 1 + s.abortCount := by simpa [hw] using h5
      refine ⟨h1, ?_, h3, ?_, ?_, fun _ => h6 (by simp [hw])⟩
      · simpa [hd] using h2
      · intro hab
        simpa using h4 hab
      · simp [h5']
    · have h5' : s.writeCount = 1 + s.abortCount := by simpa [hw] using h5
      have h2' : s.closeCount = 0 := by simpa [hd] using h2
      refine ⟨h1, ?_, h3, fun _ => rfl, ?_, fun _ => h6 (by simp [hw])⟩
      · simp [h2']
      · simp [h5']
    · exact ⟨h1, h2, h3, h4, h5, h6⟩
  | abort =>
    show InvA (if s.doneClosed then s else _)
    split_ifs with hd
    · exact ⟨h1, h2, h3, h4, h5, h6⟩
    · have ha : s.abortCount = 0 := by
        by_contra hc
        exact hd (h4 (Nat.one_le_iff_ne_zero.mpr hc))
      have h2' : s.closeCount = 0 := by simpa [hd] using h2
      refine ⟨?_, ?_, ?_, fun _ => rfl, ?_, ?_⟩
      · simpa using h1
      · simp [h2']
      · simp [ha]
      · simp only [] at h5 ⊢
        simp [ha] at h5
        simp [h5, ha]
      · intro hp
        exact h6 (by simpa using hp)
  | parentCancel e =>
    show InvA (if s.ctxCanceled then s else
        { s with ctxCanceled := true, ctxErr := some e })
    split_ifs with hc
    · exact ⟨h1, h2, h3, h4, h5, h6⟩
    · exact ⟨h1, h2, h3, h4, h5, h6⟩

theorem invA_mk (lz : Bool) (task : TaskFn) : InvA (mkA lz task) := by
  have hbase : InvA ({ lazy := lz, task := task } : StateA) := by
    refine ⟨rfl, rfl, Nat.zero_le 1, ?_, rfl, ?_⟩ <;> intro h <;> simp at h
  cases lz with
  | false => exact invA_step _ EvA.demand hbase
  | true => exact hbase

theorem invA_run (s : StateA) (tr : List EvA) (h : InvA s) :
    InvA (runA s tr) := by
  induction tr generalizing s with
  | nil => exact h
  | cons e tr ih => exact ih (stepA s e) (invA_step s e h)

theorem invF_step (s : StateF) (e : EvF) (h : InvF s) : InvF (stepF s e) := by
  obtain ⟨h1, h2⟩ := h
  cases e with
  | demand =>
    show InvF (startGateF s)
    unfold startGateF
    split_ifs with ho
    · exact ⟨h1, h2⟩
    · refine ⟨?_, fun _ => rfl⟩
      simp [ho] at h1
      simp [h1]
  | publish =>
    show InvF (if s.phase = ExecPhase.running then
        publishF s (s.promise s.ctxCanceled) else s)
    split_ifs with hr
    · refine ⟨?_, ?_⟩ <;> simp
      · exact h1
      · exact fun _ => h2 (by simp [hr])
    · exact ⟨h1, h2⟩
  | abort =>
    show InvF (if s.ctxCanceled then s else _)
    split_ifs with hc
    · exact ⟨h1, h2⟩
    · exact ⟨h1, h2⟩
  | parentCancel e =>
    show InvF (if s.ctxCanceled then s else _)
    split_ifs with hc
    · exact ⟨h1, h2⟩
    · exact ⟨h1, h2⟩

theorem invF_mk (lz : Bool) (promise : TaskFn) : InvF (mkF lz promise) := by
  have hbase : InvF ({ lazy := lz, promise := promise } : StateF) := by
    refine ⟨rfl, ?_⟩
    intro h
    simp at h
  cases lz with
  | false => exact invF_step _ EvF.demand hbase
  | true => exact hbase

theorem invF_run (s : StateF) (tr : List EvF) (h : InvF s) :
    InvF (runF s tr) := by
  induction tr generalizing s with
  | nil => exact h
  | cons e tr ih => exact ih (stepF s e) (invF_step s e h)

theorem onceA_step_mono (s : StateA) (e : EvA) (h : s.onceUsed = true) :
    (stepA s e).onceUsed = true := by
  cases e <;> simp [stepA, startGateA, h] <;> split_ifs <;> simp [h]

theorem onceA_demand (s : StateA) : (stepA s EvA.demand).onceUsed = true := by
  show (startGateA s).onceUsed = true
  unfold startGateA
  split_ifs with ho
  · exact ho
  · rfl

theorem onceA_run_mono (s : StateA) (tr : List EvA) (h : s.onceUsed = true) :
    (runA s tr).onceUsed = true := by
  induction tr generalizing s with
  | nil => exact h
  | cons e tr ih => exact ih (stepA s e) (onceA_step_mono s e h)

theorem onceA_of_demand_mem (s : StateA) (tr : List EvA)
    (h : EvA.demand ∈ tr) : (runA s tr).onceUsed = true := by
  induction tr generalizing s with
  | nil => cases h
  | cons e tr ih =>
    rcases List.mem_cons.mp h with he | he
    · rw [runA_cons, ← he]
      exact onceA_run_mono _ tr (onceA_demand s)
    · exact ih (stepA s e) he

theorem stepA_no_demand_exec (s : StateA) (e : EvA) (h : e ≠ EvA.demand) :
    (stepA s e).execCount = s.execCount := by
  cases e with
  | demand => exact absurd rfl h
  | publish =>
    show (if s.phase = ExecPhase.running then _ else s).execCount = _
    split_ifs <;> simp
  | finish =>
    show (if s.phase = ExecPhase.wrote then _ else s).execCount = _
    split_ifs <;> rfl
  | abort =>
    show (if s.doneClosed then s else _).execCount = _
    split_ifs <;> rfl
  | parentCancel e =>
    show (if s.ctxCanceled then s else _).execCount = _
    split_ifs <;> rfl

theorem runA_no_demand_exec (s : StateA) (tr : List EvA)
    (h : ∀ e ∈ tr, e ≠ EvA.demand) : (runA s tr).execCount = s.execCount := by
  induction tr generalizing s with
  | nil => rfl
  | cons e tr ih =>
    rw [runA_cons, ih (stepA s e) (fun x hx => h x (List.mem_cons_of_mem e hx))]
    exact stepA_no_demand_exec s e (h e (List.mem_cons_self e tr))

theorem stepA_no_abort_count (s : StateA) (e : EvA) (h : e ≠ EvA.abort) :
    (stepA s e).abortCount = s.abortCount := by
  cases e with
  | abort => exact absurd rfl h
  | demand =>
    show (startGateA s).abortCount = _
    unfold startGateA
    split_ifs <;> rfl
  | publish =>
    show (if s.phase = ExecPhase.running then _ else s).abortCount = _
    split_ifs <;> simp
  | finish =>
    show (if s.phase = ExecPhase.wrote then _ else s).abortCount = _
    split_ifs <;> rfl
  | parentCancel e =>
    show (if s.ctxCanceled then s else _).abortCount = _
    split_ifs <;> rfl

theorem runA_no_abort_count (s : StateA) (tr : List EvA)
    (h : ∀ e ∈ tr, e ≠ EvA.abort) : (runA s tr).abortCount = s.abortCount := by
  induction tr generalizing s with
  | nil => rfl
  | cons e tr ih =>
    rw [runA_cons, ih (stepA s e) (fun x hx => h x (List.mem_cons_of_mem e hx))]
    exact stepA_no_abort_count s e (h e (List.mem_cons_self e tr))

theorem onceF_step_mono (s : StateF) (e : EvF) (h : s.onceUsed = true) :
    (stepF s e).onceUsed = true := by
  cases e <;> simp [stepF, startGateF, h] <;> split_ifs <;> simp [h]

theorem onceF_demand (s : StateF) : (stepF s EvF.demand).onceUsed = true := by
  show (startGateF s).onceUsed = true
  unfold startGateF
  split_ifs with ho
  · exact ho
  · rfl

theorem onceF_run_mono (s : StateF) (tr : List EvF) (h : s.onceUsed = true) :
    (runF s tr).onceUsed = true := by
  induction tr generalizing s with
  | nil => exact h
  | cons e tr ih => exact ih (stepF s e) (onceF_step_mono s e h)

theorem onceF_of_demand_mem (s : StateF) (tr : List EvF)
    (h : EvF.demand ∈ tr) : (runF s tr).onceUsed = true := by
  induction tr generalizing s with
  | nil => cases h
  | cons e tr ih =>
    rcases List.mem_cons.mp h with he | he
    · rw [runF_cons, ← he]
      exact onceF_run_mono _ tr (onceF_demand s)
    · exact ih (stepF s e) he

theorem stepF_no_demand_exec (s : StateF) (e : EvF) (h : e ≠ EvF.demand) :
    (stepF s e).execCount = s.execCount := by
  cases e with
  | demand => exact absurd rfl h
  | publish =>
    show (if s.phase = ExecPhase.running then _ else s).execCount = _
    split_ifs <;> simp
  | abort =>
    show (if s.ctxCanceled then s else _).execCount = _
    split_ifs <;> rfl
  | parentCancel e =>
    show (if s.ctxCanceled then s else _).execCount = _
    split_ifs <;> rfl

theorem runF_no_demand_exec (s : StateF) (tr : List EvF)
    (h : ∀ e ∈ tr, e ≠ EvF.demand) : (runF s tr).execCount = s.execCount := by
  induction tr generalizing s with
  | nil => rfl
  | cons e tr ih =>
    rw [runF_cons, ih (stepF s e) (fun x hx => h x (List.mem_cons_of_mem e hx))]
    exact stepF_no_demand_exec s e (h e (List.mem_cons_self e tr))

/-- C1, counterexample.  The claim says that after the completion latch
is signaled no path ever writes the result slot again and the two
writers never both publish.  In the mutex variant this fails: start an
eager future whose task returns `(7, nil)`, let `Abort()` win the race
(it stores `(nil, context.Canceled)` and closes the done channel), and
then let the task's completion path run: `start`'s goroutine takes the
mutex and assigns `f.item, f.err = res, err` unconditionally, writing
the slot a second time after the latch was signaled, so a later
`Result()` returns `(7, nil)` instead of the published cancellation. -/
theorem C1_counterexample :
    (runA (mkA false (fun _ => TaskOutcome.ret (some 7) none))
        [EvA.abort]).doneClosed = true ∧
    (runA (mkA false (fun _ => TaskOutcome.ret (some 7) none))
        [EvA.abort, EvA.publish]).writeCount = 2 ∧
    ResultA (runA (mkA false (fun _ => TaskOutcome.ret (some 7) none))
        [EvA.abort, EvA.publish]) = some (some 7, none) :=
  ⟨rfl, rfl, rfl⟩

/-- C1, amended.  In every execution of the mutex variant the done
channel is closed exactly once (at most once here; the `closed
sync.Once` discipline), each write of the result slot is an atomic
mutex-guarded assignment (never partial), and the slot is written at
most twice — once by the execution path and once by `Abort()`; in
particular, with no `Abort()` call it is written at most once.  The
"exactly one writer" part of the original claim does not hold: when
`Abort()` publishes first, a later-finishing task overwrites the slot
after the latch was already signaled. -/
theorem C1_latch_once_and_bounded_writes (lz : Bool) (task : TaskFn)
    (tr : List EvA) :
    (runA (mkA lz task) tr).closeCount ≤ 1 ∧
    (runA (mkA lz task) tr).writeCount ≤ 2 ∧
    ((∀ e ∈ tr, e ≠ EvA.abort) → (runA (mkA lz task) tr).writeCount ≤ 1) := by
  obtain ⟨-, h2, h3, -, h5, -⟩ := invA_run (mkA lz task) tr (invA_mk lz task)
  have hw : wIndicator (runA (mkA lz task) tr).phase ≤ 1 := by
    unfold wIndicator
    split_ifs <;> omega
  refine ⟨?_, ?_, ?_⟩
  · rw [h2]
    split_ifs <;> omega
  · omega
  · intro hno
    have hz : (runA (mkA lz task) tr).abortCount = 0 := by
      rw [runA_no_abort_count _ tr hno]
      cases lz with
      | false => rfl
      | true => rfl
    omega

/-- C1, witness for the amended theorem at a concrete abort-free
execution. -/
theorem C1_latch_once_and_bounded_writes_witness :
    (runA (mkA false (fun _ => TaskOutcome.ret (some 7) none))
        [EvA.publish, EvA.finish]).writeCount ≤ 1 :=
  (C1_latch_once_and_bounded_writes false (fun _ => TaskOutcome.ret (some 7) none)
    [EvA.publish, EvA.finish]).2.2 (by decide)

/-- C2: in both variants the work function body executes at most once
over any execution — eager construction plus any number of demand
calls — and in lazy mode any nonempty sequence of demand calls causes
exactly one execution, because every trigger funnels through the
`sync.Once` start gate. -/
theorem C2_work_function_at_most_once (lz : Bool) (task : TaskFn)
    (trA : List EvA) (trF : List EvF) :
    (runA (mkA lz task) trA).execCount ≤ 1 ∧
    (runF (mkF lz task) trF).execCount ≤ 1 ∧
    (EvA.demand ∈ trA → (runA (mkA lz task) trA).execCount = 1) ∧
    (EvF.demand ∈ trF → (runF (mkF lz task) trF).execCount = 1) := by
  obtain ⟨ha1, -, -, -, -, -⟩ := invA_run (mkA lz task) trA (invA_mk lz task)
  obtain ⟨hf1, -⟩ := invF_run (mkF lz task) trF (invF_mk lz task)
  refine ⟨?_, ?_, ?_, ?_⟩
  · rw [ha1]
    split_ifs <;> omega
  · rw [hf1]
    split_ifs <;> omega
  · intro hm
    rw [ha1, if_pos (onceA_of_demand_mem _ trA hm)]
  · intro hm
    rw [hf1, if_pos (onceF_of_demand_mem _ trF hm)]

/-- C2, witness: two demand calls on a lazy future in either variant
yield exactly one execution of the work function body. -/
theorem C2_work_function_at_most_once_witness :
    (runA (mkA true (fun _ => TaskOutcome.ret (some 1) none))
        [EvA.demand, EvA.demand]).execCount = 1 ∧
    (runF (mkF true (fun _ => TaskOutcome.ret (some 1) none))
        [EvF.demand, EvF.demand]).execCount = 1 := by
  have h := C2_work_function_at_most_once true
    (fun _ => TaskOutcome.ret (some 1) none)
    [EvA.demand, EvA.demand] [EvF.demand, EvF.demand]
  exact ⟨h.2.2.1 (by decide), h.2.2.2 (by decide)⟩

/-- C3: `future.go`'s `run` has no `recover`, so a work function that
panics (here with message "unexpected error") kills the execution
goroutine before any store and before `close(f.done)`: nothing is
written to the result cells, the done channel never closes, and a
waiting `Await()` never unblocks through it — contradicting the
README's advertised panic recovery and the claim.  The mutex variant
embedded in `README.md` does behave as the claim says: its recover
boundary stores `(nil, "panic occurred: unexpected error")` and closes
the done channel, which is what `TestFuture_PanicRecovery` checks. -/
theorem C3_panic_uncontained_in_future_go :
    (runF (mkF false (fun _ => TaskOutcome.panicked "unexpected error"))
        [EvF.publish]).crashed = true ∧
    (runF (mkF false (fun _ => TaskOutcome.panicked "unexpected error"))
        [EvF.publish]).doneClosed = false ∧
    (runF (mkF false (fun _ => TaskOutcome.panicked "unexpected error"))
        [EvF.publish]).res = none ∧
    (runF (mkF false (fun _ => TaskOutcome.panicked "unexpected error"))
        [EvF.publish]).err = none ∧
    AwaitF (runF (mkF false (fun _ => TaskOutcome.panicked "unexpected error"))
        [EvF.publish]) true = none ∧
    ResultA (runA (mkA false (fun _ => TaskOutcome.panicked "unexpected error"))
        [EvA.publish, EvA.finish])
      = some (none, some (GoErr.panicOccurred "unexpected error")) :=
  ⟨rfl, rfl, rfl, rfl, rfl, rfl⟩

/-- C4, counterexample.  The claim says the cancellation path stores
`(nil, CancellationError)` in the result slot and signals the
completion latch immediately.  In the channel variant (`future.go`)
`Abort()` only calls `f.cancel()`: after aborting a pending future the
done channel is still open and both result cells are still unset. -/
theorem C4_counterexample :
    (runF (mkF false (fun _ => TaskOutcome.ret (some 5) none))
        [EvF.abort]).doneClosed = false ∧
    (runF (mkF false (fun _ => TaskOutcome.ret (some 5) none))
        [EvF.abort]).res = none ∧
    (runF (mkF false (fun _ => TaskOutcome.ret (some 5) none))
        [EvF.abort]).err = none :=
  ⟨rfl, rfl, rfl⟩

/-- C4, amended.  Abort of a not-yet-completed future: in the mutex
variant `Abort()` stores `(nil, context.Canceled)` and closes the done
channel, so `Result()` immediately returns the cancellation error; in
the channel variant `Abort()` only cancels the context — the result
cells and done channel are untouched — and a pending or subsequent
`Await()` returns `(nil, context.Canceled)` through the context branch
of its select, without waiting for the work function. -/
theorem C4_abort_pending (sA : StateA) (sF : StateF) (pick : Bool)
    (hA : sA.doneClosed = false) (hF : sF.doneClosed = false)
    (hc : sF.ctxCanceled = false) :
    ResultA (stepA sA EvA.abort) = some (none, some GoErr.contextCanceled) ∧
    (stepA sA EvA.abort).doneClosed = true ∧
    (stepF sF EvF.abort).doneClosed = false ∧
    (stepF sF EvF.abort).res = sF.res ∧
    (stepF sF EvF.abort).err = sF.err ∧
    AwaitF (stepF sF EvF.abort) pick = some (none, some GoErr.contextCanceled) := by
  simp [stepA, stepF, ResultA, AwaitF, hA, hF, hc]

/-- C4, witness at a concrete pending future in each variant. -/
theorem C4_abort_pending_witness :
    ResultA (stepA (mkA true (fun _ => TaskOutcome.ret (some 5) none)) EvA.abort)
      = some (none, some GoErr.contextCanceled) ∧
    AwaitF (stepF (mkF true (fun _ => TaskOutcome.ret (some 5) none)) EvF.abort) true
      = some (none, some GoErr.contextCanceled) := by
  have h := C4_abort_pending (mkA true (fun _ => TaskOutcome.ret (some 5) none))
    (mkF true (fun _ => TaskOutcome.ret (some 5) none)) true rfl rfl rfl
  exact ⟨h.1, h.2.2.2.2.2⟩

/-- C5, counterexample.  The claim says that after a future completed
with `(42, nil)`, every subsequent `Result()`/`Await()` call after
`Abort()` still returns `(42, nil)`.  In the channel variant a
post-completion `Abort()` cancels the context, so a later `Await()`
has both select branches ready and may take the context branch,
returning `(nil, context.Canceled)` even though the slot still holds
`(42, nil)`. -/
theorem C5_counterexample :
    AwaitF (runF (mkF false (fun _ => TaskOutcome.ret (some 42) none))
        [EvF.publish, EvF.abort]) false
      = some (none, some GoErr.contextCanceled) ∧
    (runF (mkF false (fun _ => TaskOutcome.ret (some 42) none))
        [EvF.publish, EvF.abort]).res = some 42 ∧
    (runF (mkF false (fun _ => TaskOutcome.ret (some 42) none))
        [EvF.publish, EvF.abort]).err = none :=
  ⟨rfl, rfl, rfl⟩

/-- C5, amended.  A post-completion `Abort()` never touches the stored
result: in the mutex variant it is a complete no-op on the state, so
every later `Result()` is unchanged; in the channel variant the result
cells keep their values and an `Await()` whose select picks the done
branch still returns the stored pair — but an `Await()` whose select
picks the context branch returns the cancellation error instead (the
counterexample). -/
theorem C5_post_completion_abort (sA : StateA) (sF : StateF)
    (hA : sA.doneClosed = true) (hF : sF.doneClosed = true) :
    stepA sA EvA.abort = sA ∧
    (stepF sF EvF.abort).res = sF.res ∧
    (stepF sF EvF.abort).err = sF.err ∧
    AwaitF (stepF sF EvF.abort) true = some (sF.res, sF.err) := by
  refine ⟨?_, ?_, ?_, ?_⟩
  · simp [stepA, hA]
  · by_cases hc : sF.ctxCanceled <;> simp [stepF, hc]
  · by_cases hc : sF.ctxCanceled <;> simp [stepF, hc]
  · by_cases hc : sF.ctxCanceled <;> simp [stepF, AwaitF, hc, hF]

/-- C5, witness at a future completed with value 42 in each variant. -/
theorem C5_post_completion_abort_witness :
    stepA (runA (mkA false (fun _ => TaskOutcome.ret (some 42) none))
        [EvA.publish, EvA.finish]) EvA.abort
      = runA (mkA false (fun _ => TaskOutcome.ret (some 42) none))
          [EvA.publish, EvA.finish] ∧
    AwaitF (stepF (runF (mkF false (fun _ => TaskOutcome.ret (some 42) none))
        [EvF.publish]) EvF.abort) true = some (some 42, none) := by
  have h := C5_post_completion_abort
    (runA (mkA false (fun _ => TaskOutcome.ret (some 42) none))
      [EvA.publish, EvA.finish])
    (runF (mkF false (fun _ => TaskOutcome.ret (some 42) none))
      [EvF.publish]) rfl rfl
  exact ⟨h.1, h.2.2.2⟩

/-- C6, counterexample.  The claim says a blocked `Result()`/`Await()`
unblocks with the context's error when the ambient context expires
before completion.  The mutex variant's `Result()` waits only on the
done channel: after the ambient context times out (here with
`context.DeadlineExceeded`) and before the work function publishes,
the `Result()` call is still blocked (and `Ready()` is still false) —
it does not return the context error. -/
theorem C6_counterexample :
    ResultA (runA (mkA false (fun _ => TaskOutcome.ret (some 1) none))
        [EvA.demand, EvA.parentCancel GoErr.deadlineExceeded]) = none ∧
    ReadyA (runA (mkA false (fun _ => TaskOutcome.ret (some 1) none))
        [EvA.demand, EvA.parentCancel GoErr.deadlineExceeded]) = false :=
  ⟨rfl, rfl⟩

/-- C6, amended.  Only the channel variant's `Await()` observes the
ambient context: when the ambient context expires with error `e`
before completion, a blocked `Await()` unblocks and returns
`(nil, e)` even though no result is stored; the mutex variant's
`Result()` read is unaffected by ambient expiry and keeps blocking
until the done channel closes. -/
theorem C6_ambient_cancel_unblocks_await_only (sF : StateF) (sA : StateA)
    (e : GoErr) (pick : Bool)
    (h1 : sF.doneClosed = false) (h2 : sF.ctxCanceled = false) :
    AwaitF (stepF sF (EvF.parentCancel e)) pick = some (none, some e) ∧
    ResultA (stepA sA (EvA.parentCancel e)) = ResultA sA := by
  constructor
  · simp [stepF, AwaitF, h1, h2]
  · by_cases hc : sA.ctxCanceled <;> simp [stepA, ResultA, hc]

/-- C6, witness: ambient deadline expiry on a pending channel-variant
future unblocks `Await()` with the deadline error. -/
theorem C6_ambient_cancel_witness :
    AwaitF (stepF (mkF true (fun _ => TaskOutcome.ret (some 1) none))
        (EvF.parentCancel GoErr.deadlineExceeded)) true
      = some (none, some GoErr.deadlineExceeded) :=
  (C6_ambient_cancel_unblocks_await_only
    (mkF true (fun _ => TaskOutcome.ret (some 1) none))
    (mkA true (fun _ => TaskOutcome.ret (some 1) none))
    GoErr.deadlineExceeded true rfl rfl).1

/-- C7: a future constructed lazy and never demanded never executes its
work function, in either variant: only a demand event can claim the
start gate, so any execution without one leaves the invocation count
at zero. -/
theorem C7_lazy_never_queried_never_runs (task : TaskFn)
    (trA : List EvA) (trF : List EvF)
    (hA : EvA.demand ∉ trA) (hF : EvF.demand ∉ trF) :
    (runA (mkA true task) trA).execCount = 0 ∧
    (runF (mkF true task) trF).execCount = 0 := by
  constructor
  · rw [runA_no_demand_exec _ trA (fun e he hq => hA (hq ▸ he))]
    rfl
  · rw [runF_no_demand_exec _ trF (fun e he hq => hF (hq ▸ he))]
    rfl

/-- C7, witness: lazy futures that are aborted and whose context
expires, but are never demanded, never run the work function. -/
theorem C7_lazy_never_queried_never_runs_witness :
    (runA (mkA true (fun _ => TaskOutcome.ret (some 1) none))
        [EvA.abort]).execCount = 0 ∧
    (runF (mkF true (fun _ => TaskOutcome.ret (some 1) none))
        [EvF.abort, EvF.parentCancel GoErr.contextCanceled]).execCount = 0 :=
  C7_lazy_never_queried_never_runs (fun _ => TaskOutcome.ret (some 1) none)
    [EvA.abort] [EvF.abort, EvF.parentCancel GoErr.contextCanceled]
    (by decide) (by decide)

/-- C8, counterexample.  The claim says that after `Abort()` completes
a never-started lazy future, a subsequent `Result()`/`Await()` does
not execute the work function.  In the mutex variant, `Abort()` on a
lazy future stores the cancellation outcome and closes the done
channel (the future is Completed), but it does not consume the
`sync.Once` start gate: the next `Result()` call's `once.Do(start)`
claims the gate and runs the task (invocation count 1), and the task's
completion then even overwrites the stored cancellation with
`(9, nil)`. -/
theorem C8_counterexample :
    (runA (mkA true (fun _ => TaskOutcome.ret (some 9) none))
        [EvA.abort]).doneClosed = true ∧
    ResultA (runA (mkA true (fun _ => TaskOutcome.ret (some 9) none))
        [EvA.abort]) = some (none, some GoErr.contextCanceled) ∧
    (runA (mkA true (fun _ => TaskOutcome.ret (some 9) none))
        [EvA.abort, EvA.demand]).execCount = 1 ∧
    ResultA (runA (mkA true (fun _ => TaskOutcome.ret (some 9) none))
        [EvA.abort, EvA.demand, EvA.publish, EvA.finish]) = some (some 9, none) :=
  ⟨rfl, rfl, rfl, rfl⟩

/-- C8, amended.  The done channel is terminal (no event reopens it)
and the work function still runs at most once, but `Abort()` does not
consume the start gate in either variant: a demand call on an
already-aborted lazy future triggers the (single) execution of the
work function, with an already-canceled context. -/
theorem C8_completed_not_execution_terminal (task : TaskFn) (sA : StateA)
    (sF : StateF) (e : EvA) (tr : List EvA) (h : sA.doneClosed = true) :
    (stepA sA e).doneClosed = true ∧
    (stepA sA EvA.abort).onceUsed = sA.onceUsed ∧
    (stepF sF EvF.abort).onceUsed = sF.onceUsed ∧
    (runA (mkA true task) [EvA.abort, EvA.demand]).execCount = 1 ∧
    (runF (mkF true task) [EvF.abort, EvF.demand]).execCount = 1 ∧
    (runA (mkA true task) tr).execCount ≤ 1 := by
  refine ⟨?_, ?_, ?_, rfl, rfl, ?_⟩
  · cases e with
    | demand =>
      show (startGateA sA).doneClosed = true
      unfold startGateA
      split_ifs <;> simpa using h
    | publish =>
      show (if sA.phase = ExecPhase.running then
          writeOutcomeA sA (sA.task sA.ctxCanceled) else sA).doneClosed = true
      split_ifs <;> simpa using h
    | finish =>
      show (if sA.phase = ExecPhase.wrote then
          (if sA.doneClosed then { sA with phase := ExecPhase.finished }
           else { sA with doneClosed := true, phase := ExecPhase.finished,
                          closeCount := sA.closeCount + 1 }) else sA).doneClosed
        = true
      split_ifs <;> simpa using h
    | abort =>
      show (if sA.doneClosed then sA else _).doneClosed = true
      simp [h]
    | parentCancel e' =>
      show (if sA.ctxCanceled then sA else _).doneClosed = true
      split_ifs <;> simpa using h
  · show (if sA.doneClosed then sA else _).onceUsed = sA.onceUsed
    by_cases hd : sA.doneClosed
    · simp [hd]
    · simp [hd]
  · show (if sF.ctxCanceled then sF else _).onceUsed = sF.onceUsed
    by_cases hc : sF.ctxCanceled
    · simp [hc]
    · simp [hc]
  · obtain ⟨ha1, -, -, -, -, -⟩ := invA_run (mkA true task) tr (invA_mk true task)
    rw [ha1]
    split_ifs <;> omega

/-- C8, witness at a lazy future already completed by `Abort()`. -/
theorem C8_completed_not_execution_terminal_witness :
    (runA (mkA true (fun _ => TaskOutcome.ret (some 9) none))
        [EvA.abort, EvA.demand]).execCount = 1 :=
  (C8_completed_not_execution_terminal (fun _ => TaskOutcome.ret (some 9) none)
    (runA (mkA true (fun _ => TaskOutcome.ret (some 9) none)) [EvA.abort])
    (mkF true (fun _ => TaskOutcome.ret (some 9) none))
    EvA.demand [EvA.demand] rfl).2.2.2.1

/-- C9, counterexample.  The claim says that when the work function
returns a non-nil error the stored outcome is `(nil-value, error)` and
any value returned alongside is not surfaced.  Both variants store the
returned pair verbatim: a task returning `(42, workErr 3)` yields
`Result()`/`Await()` returning `(42, workErr 3)`, not `(nil, workErr 3)`. -/
theorem C9_counterexample :
    ResultA (runA (mkA false
        (fun _ => TaskOutcome.ret (some 42) (some (GoErr.workErr 3))))
        [EvA.publish, EvA.finish])
      = some (some 42, some (GoErr.workErr 3)) ∧
    AwaitF (runF (mkF false
        (fun _ => TaskOutcome.ret (some 42) (some (GoErr.workErr 3))))
        [EvF.publish]) true
      = some (some 42, some (GoErr.workErr 3)) :=
  ⟨rfl, rfl⟩

/-- C9, amended.  The execution path stores whatever pair the work
function returned, verbatim: after normal completion with `(v, e)`,
`Result()` (mutex variant) and `Await()` (channel variant, done
branch) both return exactly `(v, e)` — a value returned alongside an
error is stored and surfaced. -/
theorem C9_error_return_keeps_value (v : Option Nat) (e : Option GoErr) :
    ResultA (runA (mkA false (fun _ => TaskOutcome.ret v e))
        [EvA.publish, EvA.finish]) = some (v, e) ∧
    AwaitF (runF (mkF false (fun _ => TaskOutcome.ret v e))
        [EvF.publish]) true = some (v, e) := by
  constructor
  · rfl
  · cases v <;> cases e <;> rfl

/-- C10: a work function may return `(nil, nil)`; the future then
completes normally in both variants — the done channel closes and
every `Result()`/`Await()` read returns `(nil, nil)` (in the channel
variant for either select choice, the context being alive), exactly as
for any other successful completion. -/
theorem C10_nil_nil_completes_normally :
    (runA (mkA false (fun _ => TaskOutcome.ret none none))
        [EvA.publish, EvA.finish]).doneClosed = true ∧
    ResultA (runA (mkA false (fun _ => TaskOutcome.ret none none))
        [EvA.publish, EvA.finish]) = some (none, none) ∧
    (runF (mkF false (fun _ => TaskOutcome.ret none none))
        [EvF.publish]).doneClosed = true ∧
    AwaitF (runF (mkF false (fun _ => TaskOutcome.ret none none))
        [EvF.publish]) true = some (none, none) ∧
    AwaitF (runF (mkF false (fun _ => TaskOutcome.ret none none))
        [EvF.publish]) false = some (none, none) :=
  ⟨rfl, rfl, rfl, rfl, rfl⟩

end FutureSpec
